import Mathlib

/-
  Shallow embedding of Lyalpha/arxivscraper (src/arxivscraper/arxivscraper.py).

  The embedding models:
  * Python string operations used by the code (strip / lower / replace / `in`),
  * parsed XML trees as produced by xml.etree.ElementTree (an element has a
    namespaced tag, an optional text and a list of children; an empty element
    has text `none`, as ElementTree reports text None for empty elements),
  * the `Record` extraction class (`_get_text`, `_get_authors`,
    `_get_affiliation`, `output`),
  * the `Scraper.scrape` harvesting loop, with the HTTP transport modelled as
    a scripted list of responses (one response consumed per `urlopen` call)
    and wall-clock time modelled as one duration per loop iteration.

  Python exceptions are modelled with `Except PyErr`; a try/except block is a
  `match` on the `Except` value.
-/

namespace ArxivScraper

/-- Errors the Python code can raise or catch. -/
inductive PyErr where
  | attributeError : PyErr
  | keyError : String → PyErr
  | indexError : PyErr
  | httpError : Nat → PyErr
deriving DecidableEq, Repr

/-! ## Python string primitives -/

/-- Characters removed by Python `str.strip()` (default whitespace set). -/
def stripChars (l : List Char) : List Char :=
  ((l.dropWhile Char.isWhitespace).reverse.dropWhile Char.isWhitespace).reverse

/-- Python `s.strip()`. -/
def pyStrip (s : String) : String := String.mk (stripChars s.data)

/-- Python `s.lower()`. -/
def pyLower (s : String) : String := String.mk (s.data.map Char.toLower)

/-- Python `s.replace("\n", " ")`: every newline becomes a single space
(single-character pattern, so character-wise replacement is exact). -/
def pyReplaceNewline (s : String) : String :=
  String.mk (s.data.map (fun c => if c == '\n' then ' ' else c))

/-- Contiguous-sublist test: `w` occurs as a contiguous run inside `s`. -/
def containsSub (w : List Char) (s : List Char) : Bool :=
  match s with
  | [] => w.isEmpty
  | _ :: rest => w.isPrefixOf s || containsSub w rest

/-- Python `w in s` for strings: contiguous substring test. -/
def pyInStr (w s : String) : Bool := containsSub w.data s.data

/-! ## Parsed XML model (xml.etree.ElementTree) -/

/-- A parsed XML element: tag (with `{namespace}` prefix, as ElementTree
renders namespaced tags), optional text content, ordered children. -/
inductive Elem where
  | mk : String → Option String → List Elem → Elem

/-- Tag of an element. -/
def Elem.tag : Elem → String
  | Elem.mk t _ _ => t

/-- Text content of an element (`None` for empty elements). -/
def Elem.text : Elem → Option String
  | Elem.mk _ x _ => x

/-- Children of an element. -/
def Elem.children : Elem → List Elem
  | Elem.mk _ _ c => c

instance : Inhabited Elem := ⟨Elem.mk "" none []⟩

/-- Python `element.find(tag)`: first direct child with the given tag, or None. -/
def findChild (e : Elem) (t : String) : Option Elem :=
  e.children.find? (fun c => c.tag == t)

/-- Python `element.findall(tag)`: all direct children with the given tag, in order. -/
def findAll (e : Elem) (t : String) : List Elem :=
  e.children.filter (fun c => c.tag == t)

/-- OAI namespace prefix, as in the source (`OAI2` constant). -/
def OAI2 : String := "\x7bhttp://www.openarchives.org/OAI/2.0/\x7d"

/-- ArXiv metadata namespace prefix, as in the source (`ARXIV` constant). -/
def ARXIV : String := "\x7bhttp://arxiv.org/OAI/arXiv/\x7d"

/-- Base URL of the OAI2 endpoint (`ARXIVOAI2_URLBASE` constant). -/
def ARXIVOAI2_URLBASE : String := "http://export.arxiv.org/oai2?"

/-! ## Record extraction (`class Record`) -/

/-- Model of `Record._get_text(namespace, tag)`: the try block returns
`find(namespace+tag).text.strip().lower().replace("\n", " ")`; any failure
(absent sub-element, or text None) is caught by the bare `except` and
defaults to the empty string. -/
def getText (xml : Elem) (ns tag : String) : String :=
  match findChild xml (ns ++ tag) with
  | none => ""
  | some e =>
    match e.text with
    | none => ""
    | some t => pyReplaceNewline (pyLower (pyStrip t))

/-- The author elements: `xml.findall(ARXIV + "authors/" + ARXIV + "author")`
(all `author` children of all `authors` children, in document order). -/
def authorsOf (xml : Elem) : List Elem :=
  (findAll xml (ARXIV ++ "authors")).flatMap (fun a => findAll a (ARXIV ++ "author"))

/-- One step of the `last_names` comprehension in `Record._get_authors`:
`author.find(ARXIV + "keyname").text.lower()` — raises AttributeError when
the `keyname` element is absent (None.text) or its text is None
(None.lower()); nothing catches it. -/
def lastNameOf (a : Elem) : Except PyErr String :=
  match findChild a (ARXIV ++ "keyname") with
  | none => Except.error PyErr.attributeError
  | some k =>
    match k.text with
    | none => Except.error PyErr.attributeError
    | some t => Except.ok (pyLower t)

/-- One step of the `first_names` comprehension in `Record._get_authors`:
`author.find(forenames).text.lower() if author.find(forenames) is not None
else ""` — an absent element gives `""`; a present element whose text is
None raises AttributeError. -/
def firstNameOf (a : Elem) : Except PyErr String :=
  match findChild a (ARXIV ++ "forenames") with
  | none => Except.ok ""
  | some f =>
    match f.text with
    | none => Except.error PyErr.attributeError
    | some t => Except.ok (pyLower t)

/-- One step of the affiliation comprehension in `Record._get_affiliation`:
`author.find(ARXIV + "affiliation").text.lower()` — raises (and is caught
at the comprehension level) when the element is absent or its text is None. -/
def affiliationOf (a : Elem) : Except PyErr String :=
  match findChild a (ARXIV ++ "affiliation") with
  | none => Except.error PyErr.attributeError
  | some f =>
    match f.text with
    | none => Except.error PyErr.attributeError
    | some t => Except.ok (pyLower t)

/-- A Python list comprehension whose body may raise: elements are produced
in order and the first exception propagates. -/
def exceptMapM (f : α → Except ε β) : List α → Except ε (List β)
  | [] => Except.ok []
  | a :: l =>
    match f a with
    | Except.error e => Except.error e
    | Except.ok b =>
      match exceptMapM f l with
      | Except.error e => Except.error e
      | Except.ok bs => Except.ok (b :: bs)

/-- The `last_names` comprehension of `Record._get_authors` (uncaught errors). -/
def getLastNames (l : List Elem) : Except PyErr (List String) :=
  exceptMapM lastNameOf l

/-- The `first_names` comprehension of `Record._get_authors` (uncaught errors). -/
def getFirstNames (l : List Elem) : Except PyErr (List String) :=
  exceptMapM firstNameOf l

/-- Full-name composition of `Record._get_authors`: `(a + " " + b).strip()`. -/
def fullnameOf (first last : String) : String :=
  pyStrip (first ++ " " ++ last)

/-- Model of `Record._get_affiliation`: the whole comprehension runs inside a
try/except; any failure yields the empty list. An empty author list yields
an empty comprehension, hence `[]`, with no exception. -/
def getAffiliation (l : List Elem) : List String :=
  match exceptMapM affiliationOf l with
  | Except.ok xs => xs
  | Except.error _ => []

/-- The fields of an extracted record, as assembled by `Record.__init__` and
exposed by `Record.output()` (the `categories` output key carries
`self.cats`). -/
structure Record where
  id : String
  url : String
  title : String
  abstract : String
  cats : String
  created : String
  updated : String
  doi : String
  authors : List String
  authors_fullnames : List String
  affiliation : List String
deriving DecidableEq, Repr

/-- Model of `Record.__init__` on a metadata element: scalar fields via `_get_text`
(never raising, defaulting to `""`), `url` derived from `id`, authors via
`_get_authors` (which may raise AttributeError, making the whole record
construction fail), affiliation via `_get_affiliation` (never raising). -/
def mkRecord (xml : Elem) : Except PyErr Record :=
  match getLastNames (authorsOf xml) with
  | Except.error e => Except.error e
  | Except.ok lasts =>
    match getFirstNames (authorsOf xml) with
    | Except.error e => Except.error e
    | Except.ok firsts =>
      Except.ok
        ⟨getText xml ARXIV "id",
         "https://arxiv.org/abs/" ++ getText xml ARXIV "id",
         getText xml ARXIV "title",
         getText xml ARXIV "abstract",
         getText xml ARXIV "categories",
         getText xml ARXIV "created",
         getText xml ARXIV "updated",
         getText xml ARXIV "doi",
         lasts,
         List.zipWith fullnameOf firsts lasts,
         getAffiliation (authorsOf xml)⟩

/-- A value of the `Record.output()` dictionary: scalar fields are strings,
author/affiliation fields are lists of strings. -/
inductive Value where
  | s : String → Value
  | l : List String → Value
deriving DecidableEq, Repr

/-- The output field names of `Record.output()`. -/
def fieldNames : List String :=
  ["title", "id", "abstract", "categories", "doi", "created", "updated",
   "authors", "authors_fullnames", "affiliation", "url"]

/-- Dictionary lookup `record[key]` on the `Record.output()` dictionary;
an unknown key raises KeyError. -/
def recGet (r : Record) (key : String) : Except PyErr Value :=
  if key = "title" then Except.ok (Value.s r.title)
  else if key = "id" then Except.ok (Value.s r.id)
  else if key = "abstract" then Except.ok (Value.s r.abstract)
  else if key = "categories" then Except.ok (Value.s r.cats)
  else if key = "doi" then Except.ok (Value.s r.doi)
  else if key = "created" then Except.ok (Value.s r.created)
  else if key = "updated" then Except.ok (Value.s r.updated)
  else if key = "authors" then Except.ok (Value.l r.authors)
  else if key = "authors_fullnames" then Except.ok (Value.l r.authors_fullnames)
  else if key = "affiliation" then Except.ok (Value.l r.affiliation)
  else if key = "url" then Except.ok (Value.s r.url)
  else Except.error (PyErr.keyError key)

/-- Python `w in v` on an output-dictionary value: substring test for string
values, element membership for list values. -/
def pyInVal (w : String) (v : Value) : Bool :=
  match v with
  | Value.s s => pyInStr w s
  | Value.l l => l.contains w

/-! ## Harvesting loop (`class Scraper`) -/

/-- One HTTP response of the transport: either `urlopen` raised `HTTPError`
with a status code and an optional integer `retry-after` header, or it
succeeded and the body parsed to the given XML root. -/
inductive Response where
  | httpError : Nat → Option Nat → Response
  | ok : Elem → Response

/-- Outcome of a harvest run against a scripted transport: the function
returned normally, an exception propagated, or the script ran out of
responses while the loop was about to request `url` (the loop would continue). -/
inductive Outcome where
  | done : List Record → Outcome
  | raised : PyErr → Outcome
  | outOfResponses : String → List Record → Outcome
deriving DecidableEq, Repr

/-- Model of `root.findall(OAI2 + "ListRecords/" + OAI2 + "record")`: the record
elements of the page (empty when the `ListRecords` element is absent). -/
def pageRecords (root : Elem) : List Elem :=
  (findAll root (OAI2 ++ "ListRecords")).flatMap (fun lr => findAll lr (OAI2 ++ "record"))

/-- Model of `root.find(OAI2 + "ListRecords")`. -/
def listRecordsElem (root : Elem) : Option Elem :=
  findChild root (OAI2 ++ "ListRecords")

/-- Per-record step of the scrape loop:
`record.find(OAI2 + "metadata").find(ARXIV + "arXiv")` followed by
`Record(meta)`. A missing `metadata` child raises AttributeError
(`None.find`); a missing `arXiv` child passes `None` to `Record`, whose
`_get_authors` then raises AttributeError (`None.findall`) — in both cases
the net effect is a propagated AttributeError. -/
def processRecord (recordElem : Elem) : Except PyErr Record :=
  match findChild recordElem (OAI2 ++ "metadata") with
  | none => Except.error PyErr.attributeError
  | some m =>
    match findChild m (ARXIV ++ "arXiv") with
    | none => Except.error PyErr.attributeError
    | some meta => mkRecord meta

/-- The inner `for word in self.filters[key]` loop of the filtering step of
`Scraper.scrape`: or-accumulates `word.lower() in record[key]` into the
`save_record` flag; `record[key]` is evaluated inside the loop body, so a
key with no words is never looked up, and a KeyError propagates as soon as
an unknown key is looked up. -/
def shouldSaveWords (r : Record) (k : String) (acc : Bool) :
    List String → Except PyErr Bool
  | [] => Except.ok acc
  | w :: ws =>
    match recGet r k with
    | Except.error e => Except.error e
    | Except.ok v => shouldSaveWords r k (acc || pyInVal (pyLower w) v) ws

/-- The outer `for key in self.keys` loop over the filter pairs, threading
the `save_record` accumulator. -/
def shouldSaveLoop (r : Record) (acc : Bool) :
    List (String × List String) → Except PyErr Bool
  | [] => Except.ok acc
  | kw :: rest =>
    match shouldSaveWords r kw.1 acc kw.2 with
    | Except.error e => Except.error e
    | Except.ok acc2 => shouldSaveLoop r acc2 rest

/-- The whole filtering step: `save_record` starts `False`. -/
def shouldSave (filters : List (String × List String)) (r : Record) :
    Except PyErr Bool :=
  shouldSaveLoop r false filters

/-- The `for record in records` body of `Scraper.scrape`: extract each
record in order and append it to `results` when `append_all` (empty
filters) or when the filter matched; a raised exception propagates. -/
def processPage (filters : List (String × List String)) (records : List Elem)
    (acc : List Record) : Except PyErr (List Record) :=
  match records with
  | [] => Except.ok acc
  | e :: rest =>
    match processRecord e with
    | Except.error err => Except.error err
    | Except.ok r =>
      if filters.isEmpty then processPage filters rest (acc ++ [r])
      else
        match shouldSave filters r with
        | Except.error err => Except.error err
        | Except.ok save => processPage filters rest (if save then acc ++ [r] else acc)

/-- Continuation URL: `"{}verb=ListRecords&resumptionToken={}"` formatted
with the base URL and the token text — built solely from the token. -/
def tokenUrl (t : String) : String :=
  ARXIVOAI2_URLBASE ++ "verb=ListRecords&resumptionToken=" ++ t

/-- The `while True` loop of `Scraper.scrape`. Each iteration consumes one
scripted `(response, duration)` pair: `duration` is the wall-clock length
(`time.time() - loop_start`) of that iteration, used only on the success
path (a 503 iteration ends with `continue`, which resets `loop_start`, so
throttling sleeps are excluded from `lastlog`/`elapsed`). The second and
third components of the result collect the requested URLs and the sleep
durations, in order. Mirrors, in order: the urlopen try/except (503 sleeps
`retry-after` or 5 then retries the same URL; any other code re-raises),
record extraction and filtering, the `ListRecords is None` break, the
resumption-token break, the progress log (which reads `results[-1]` and so
raises IndexError when `results` is empty), and the soft-timeout break. -/
def scrapeLoop (filters : List (String × List String)) (progressEvery : Nat)
    (timeout : Option Nat) (url : String) (responses : List (Response × Nat))
    (results : List Record) (lastlog elapsed : Nat) :
    Outcome × List String × List Nat :=
  match responses with
  | [] => (Outcome.outOfResponses url results, [], [])
  | (resp, dur) :: rest =>
    match resp with
    | Response.httpError code retryAfter =>
      if code = 503 then
        let w := retryAfter.getD 5
        let r := scrapeLoop filters progressEvery timeout url rest results lastlog elapsed
        (r.1, url :: r.2.1, w :: r.2.2)
      else
        (Outcome.raised (PyErr.httpError code), [url], [])
    | Response.ok root =>
      match processPage filters (pageRecords root) results with
      | Except.error e => (Outcome.raised e, [url], [])
      | Except.ok results2 =>
        match listRecordsElem root with
        | none => (Outcome.done results2, [url], [])
        | some lr =>
          match findChild lr (OAI2 ++ "resumptionToken") with
          | none => (Outcome.done results2, [url], [])
          | some tokEl =>
            match tokEl.text with
            | none => (Outcome.done results2, [url], [])
            | some t =>
              let url2 := tokenUrl t
              let lastlog2 := lastlog + dur
              if lastlog2 > progressEvery && results2.isEmpty then
                (Outcome.raised PyErr.indexError, [url], [])
              else
                let lastlog3 := if lastlog2 > progressEvery then 0 else lastlog2
                let elapsed2 := elapsed + dur
                let stop := match timeout with
                  | some tmo => decide (elapsed2 ≥ tmo)
                  | none => false
                if stop then (Outcome.done results2, [url], [])
                else
                  let r := scrapeLoop filters progressEvery timeout url2 rest results2 lastlog3 elapsed2
                  (r.1, url :: r.2.1, r.2.2)

/-- Scraper configuration as assembled by `Scraper.__init__` (the filters
dictionary is modelled as an ordered association list, reflecting Python's
insertion-ordered dict iteration). -/
structure Scraper where
  category : String
  progressEvery : Nat
  timeout : Option Nat
  url : String
  filters : List (String × List String)

/-- Initial URL built by `Scraper.__init__`: base `ListRecords` query with
the category set, plus optional inclusive `from`/`until` date bounds. -/
def initialUrl (category : String) (dateFrom dateUntil : Option String) : String :=
  let u := ARXIVOAI2_URLBASE ++ "verb=ListRecords&metadataPrefix=arXiv&set=" ++ category
  let u2 := match dateFrom with
    | some d => u ++ "&from=" ++ d
    | none => u
  match dateUntil with
  | some d => u2 ++ "&until=" ++ d
  | none => u2

/-- Model of `Scraper.__init__` (minus the remote category-vocabulary check, an
external collaborator): it stores the configuration and the filters
verbatim — filter keys are not validated. -/
def Scraper.init (category : String) (dateFrom dateUntil : Option String)
    (progressEvery : Nat) (timeout : Option Nat)
    (filters : List (String × List String)) : Scraper :=
  ⟨category, progressEvery, timeout, initialUrl category dateFrom dateUntil, filters⟩

/-- Model of `Scraper.scrape` against a scripted transport: run the loop from the
initial URL with empty results and zeroed `lastlog`/`elapsed` counters. -/
def Scraper.scrape (s : Scraper) (responses : List (Response × Nat)) :
    Outcome × List String × List Nat :=
  scrapeLoop s.filters s.progressEvery s.timeout s.url responses [] 0 0

/-- Children of a server page's `ListRecords` element: the record elements
followed, when present, by a `resumptionToken` element with the given text. -/
def lrChildren (recs : List Elem) (tok : Option String) : List Elem :=
  recs ++ (match tok with
    | some t => [Elem.mk (OAI2 ++ "resumptionToken") (some t) []]
    | none => [])

/-- A server page: a root wrapping a `ListRecords` element holding the given
record elements and, when present, a trailing `resumptionToken` element. -/
def mkRoot (recs : List Elem) (tok : Option String) : Elem :=
  Elem.mk "root" none [Elem.mk (OAI2 ++ "ListRecords") none (lrChildren recs tok)]

/-- Extraction of a whole page's records, in order, first error propagating
(the sequential `for record in records` loop without the filtering step). -/
def extractAll (records : List Elem) : Except PyErr (List Record) :=
  exceptMapM processRecord records

/-! ## Helper lemmas -/

theorem exceptMapM_ok_length {f : α → Except ε β} {l : List α} {ys : List β}
    (h : exceptMapM f l = Except.ok ys) : ys.length = l.length := by
  induction l generalizing ys with
  | nil => simp [exceptMapM] at h; simp [← h]
  | cons a t ih =>
    simp only [exceptMapM] at h
    cases hfa : f a with
    | error e => rw [hfa] at h; simp at h
    | ok b =>
      rw [hfa] at h
      cases hrest : exceptMapM f t with
      | error e => rw [hrest] at h; simp at h
      | ok bs =>
        rw [hrest] at h
        simp at h
        subst h
        simp [ih hrest]

theorem exceptMapM_ok_of_forall {f : α → Except ε β} {g : α → β} {l : List α}
    (h : ∀ a ∈ l, f a = Except.ok (g a)) :
    exceptMapM f l = Except.ok (l.map g) := by
  induction l with
  | nil => rfl
  | cons a t ih =>
    have ha : f a = Except.ok (g a) := h a (by simp)
    have ht : exceptMapM f t = Except.ok (t.map g) :=
      ih (fun x hx => h x (by simp [hx]))
    simp [exceptMapM, ha, ht]

theorem exceptMapM_error_of_exists {f : α → Except ε β} {l : List α}
    (h : ∃ a ∈ l, ∀ b, f a ≠ Except.ok b) :
    ∃ e, exceptMapM f l = Except.error e := by
  induction l with
  | nil => simp at h
  | cons a t ih =>
    rcases h with ⟨x, hx, hbad⟩
    cases hfa : f a with
    | error e => exact ⟨e, by simp [exceptMapM, hfa]⟩
    | ok b =>
      rcases List.mem_cons.mp hx with rfl | hxt
      · exact absurd hfa (hbad b)
      · rcases ih ⟨x, hxt, hbad⟩ with ⟨e, he⟩
        exact ⟨e, by simp [exceptMapM, hfa, he]⟩

theorem exceptMapM_ok_getElem {f : α → Except ε β} {l : List α} {ys : List β}
    (h : exceptMapM f l = Except.ok ys) (i : Nat) (hi : i < l.length)
    (hi' : i < ys.length) : f (l[i]) = Except.ok (ys[i]) := by
  induction l generalizing ys i with
  | nil => simp at hi
  | cons a t ih =>
    simp only [exceptMapM] at h
    cases hfa : f a with
    | error e => rw [hfa] at h; simp at h
    | ok b =>
      rw [hfa] at h
      cases hrest : exceptMapM f t with
      | error e => rw [hrest] at h; simp at h
      | ok bs =>
        rw [hrest] at h
        simp at h
        subst h
        cases i with
        | zero => simpa using hfa
        | succ j =>
          have hj : j < t.length := by simpa using hi
          have hj' : j < bs.length := by simpa using hi'
          simpa using ih hrest j hj hj'

/-- Inversion of a successful `Record` construction: each field in terms of
the extraction functions applied to the source element. -/
theorem mkRecord_ok_fields {xml : Elem} {r : Record}
    (h : mkRecord xml = Except.ok r) :
    r.id = getText xml ARXIV "id" ∧
    r.url = "https://arxiv.org/abs/" ++ getText xml ARXIV "id" ∧
    r.title = getText xml ARXIV "title" ∧
    r.abstract = getText xml ARXIV "abstract" ∧
    r.cats = getText xml ARXIV "categories" ∧
    r.created = getText xml ARXIV "created" ∧
    r.updated = getText xml ARXIV "updated" ∧
    r.doi = getText xml ARXIV "doi" ∧
    r.affiliation = getAffiliation (authorsOf xml) ∧
    ∃ lasts firsts,
      getLastNames (authorsOf xml) = Except.ok lasts ∧
      getFirstNames (authorsOf xml) = Except.ok firsts ∧
      r.authors = lasts ∧
      r.authors_fullnames = List.zipWith fullnameOf firsts lasts := by
  unfold mkRecord at h
  cases hls : getLastNames (authorsOf xml) with
  | error e => rw [hls] at h; simp at h
  | ok lasts =>
    rw [hls] at h
    cases hfs : getFirstNames (authorsOf xml) with
    | error e => rw [hfs] at h; simp at h
    | ok firsts =>
      rw [hfs] at h
      simp only [Except.ok.injEq] at h
      subst h
      refine ⟨rfl, rfl, rfl, rfl, rfl, rfl, rfl, rfl, rfl, lasts, firsts, rfl, rfl, rfl, rfl⟩

theorem shouldSaveWords_ok {r : Record} {k : String} {v : Value}
    (hk : recGet r k = Except.ok v) (acc : Bool) (ws : List String) :
    shouldSaveWords r k acc ws
      = Except.ok (acc || ws.any (fun w => pyInVal (pyLower w) v)) := by
  induction ws generalizing acc with
  | nil => simp [shouldSaveWords]
  | cons w t ih => simp [shouldSaveWords, hk, ih, Bool.or_assoc]

/-- Whether one `(key, words)` filter pair matches the record: some word,
lowercased, occurs in the record's value at that key. -/
def filterHitB (r : Record) (kw : String × List String) : Bool :=
  kw.2.any (fun w =>
    match recGet r kw.1 with
    | Except.ok v => pyInVal (pyLower w) v
    | Except.error _ => false)

theorem shouldSaveLoop_ok {r : Record} {filters : List (String × List String)}
    (hkeys : ∀ kw ∈ filters, ∃ v, recGet r kw.1 = Except.ok v) (acc : Bool) :
    shouldSaveLoop r acc filters = Except.ok (acc || filters.any (filterHitB r)) := by
  induction filters generalizing acc with
  | nil => simp [shouldSaveLoop]
  | cons kw rest ih =>
    rcases hkeys kw (by simp) with ⟨v, hv⟩
    have hhit : filterHitB r kw = kw.2.any (fun w => pyInVal (pyLower w) v) := by
      simp [filterHitB, hv]
    rw [shouldSaveLoop, shouldSaveWords_ok hv]
    simp only []
    rw [ih (fun x hx => hkeys x (by simp [hx]))]
    simp [hhit, Bool.or_assoc]

theorem processPage_nil_filters {records : List Elem} {rs : List Record}
    (h : extractAll records = Except.ok rs) (acc : List Record) :
    processPage [] records acc = Except.ok (acc ++ rs) := by
  induction records generalizing rs acc with
  | nil =>
    simp [extractAll, exceptMapM] at h
    simp [processPage, ← h]
  | cons e t ih =>
    simp only [extractAll, exceptMapM] at h
    cases hpr : processRecord e with
    | error err => rw [hpr] at h; simp at h
    | ok r =>
      rw [hpr] at h
      cases hrest : exceptMapM processRecord t with
      | error err => rw [hrest] at h; simp at h
      | ok bs =>
        rw [hrest] at h
        simp at h
        subst h
        rw [processPage]
        simp only [hpr, List.isEmpty_nil, if_true]
        rw [ih hrest (acc ++ [r])]
        simp

theorem pageRecords_mkRoot {recs : List Elem} (tok : Option String)
    (h : ∀ r ∈ recs, r.tag = OAI2 ++ "record") :
    pageRecords (mkRoot recs tok) = recs := by
  have hfilter : recs.filter (fun c => c.tag == OAI2 ++ "record") = recs :=
    List.filter_eq_self.mpr (fun r hr => by simp [h r hr])
  have htoktag : ((OAI2 ++ "resumptionToken" : String) == OAI2 ++ "record") = false := by
    decide
  cases tok with
  | none =>
    simp [pageRecords, mkRoot, findAll, Elem.children, Elem.tag, lrChildren, hfilter]
    exact h
  | some t =>
    simp [pageRecords, mkRoot, findAll, Elem.children, Elem.tag, lrChildren,
      List.filter_append, hfilter, htoktag]
    exact h

theorem listRecordsElem_mkRoot (recs : List Elem) (tok : Option String) :
    listRecordsElem (mkRoot recs tok)
      = some (Elem.mk (OAI2 ++ "ListRecords") none (lrChildren recs tok)) := by
  rfl

theorem findToken_lrChildren_some {recs : List Elem} (t : String)
    (h : ∀ r ∈ recs, r.tag = OAI2 ++ "record") :
    findChild (Elem.mk (OAI2 ++ "ListRecords") none (lrChildren recs (some t)))
        (OAI2 ++ "resumptionToken")
      = some (Elem.mk (OAI2 ++ "resumptionToken") (some t) []) := by
  have hnone : recs.find? (fun c => c.tag == OAI2 ++ "resumptionToken") = none := by
    rw [List.find?_eq_none]
    intro x hx
    rw [h x hx]
    decide
  rw [findChild]
  show (lrChildren recs (some t)).find? (fun c => c.tag == OAI2 ++ "resumptionToken")
    = some (Elem.mk (OAI2 ++ "resumptionToken") (some t) [])
  rw [lrChildren, List.find?_append, hnone]
  rfl

theorem findToken_lrChildren_none {recs : List Elem}
    (h : ∀ r ∈ recs, r.tag = OAI2 ++ "record") :
    findChild (Elem.mk (OAI2 ++ "ListRecords") none (lrChildren recs none))
        (OAI2 ++ "resumptionToken")
      = none := by
  rw [findChild]
  show (lrChildren recs none).find? (fun c => c.tag == OAI2 ++ "resumptionToken") = none
  rw [lrChildren]
  simp only [List.append_nil]
  rw [List.find?_eq_none]
  intro x hx
  rw [h x hx]
  decide

theorem scrapeLoop_mkRoot_step {f : List (String × List String)} {pe : Nat}
    {recs : List Elem} {acc results2 : List Record}
    (t2 : String) (url : String) (rest : List (Response × Nat))
    (htags : ∀ r ∈ recs, r.tag = OAI2 ++ "record")
    (hproc : processPage f recs acc = Except.ok results2) :
    scrapeLoop f pe none url ((Response.ok (mkRoot recs (some t2)), 0) :: rest) acc 0 0
      = (let r := scrapeLoop f pe none (tokenUrl t2) rest results2 0 0
         (r.1, url :: r.2.1, r.2.2)) := by
  rw [scrapeLoop]
  simp only [pageRecords_mkRoot (some t2) htags, hproc,
    listRecordsElem_mkRoot, findToken_lrChildren_some t2 htags, Elem.text]
  simp [Nat.not_lt_zero]

theorem scrapeLoop_mkRoot_final {f : List (String × List String)} {pe : Nat}
    {recs : List Elem} {acc results2 : List Record}
    (url : String) (rest : List (Response × Nat))
    (htags : ∀ r ∈ recs, r.tag = OAI2 ++ "record")
    (hproc : processPage f recs acc = Except.ok results2)
    (lastlog elapsed : Nat) :
    scrapeLoop f pe none url ((Response.ok (mkRoot recs none), 0) :: rest) acc lastlog elapsed
      = (Outcome.done results2, [url], []) := by
  rw [scrapeLoop]
  simp only [pageRecords_mkRoot none htags, hproc,
    listRecordsElem_mkRoot, findToken_lrChildren_none htags]

/-- Scripted transport for a multi-page harvest: one success response per
page (each body page carrying its resumption token, the final page none),
all iteration durations zero. -/
def buildResponses (body : List (List Elem × String)) (last : List Elem) :
    List (Response × Nat) :=
  body.map (fun p => (Response.ok (mkRoot p.1 (some p.2)), 0))
    ++ [(Response.ok (mkRoot last none), 0)]

theorem scrapeLoop_empty_filter_collect {pe : Nat}
    {body : List (List Elem × String)} {rss : List (List Record)}
    {last : List Elem} {rsLast : List Record}
    (hex : List.Forall₂ (fun p rs => extractAll p.1 = Except.ok rs) body rss)
    (htags : ∀ p ∈ body, ∀ r ∈ p.1, r.tag = OAI2 ++ "record")
    (hlastTags : ∀ r ∈ last, r.tag = OAI2 ++ "record")
    (hlastEx : extractAll last = Except.ok rsLast)
    (url : String) (acc : List Record) :
    scrapeLoop [] pe none url (buildResponses body last) acc 0 0
      = (Outcome.done (acc ++ rss.flatten ++ rsLast),
         url :: body.map (fun p => tokenUrl p.2), []) := by
  induction hex generalizing url acc with
  | nil =>
    rw [buildResponses]
    simp only [List.map_nil, List.nil_append]
    rw [scrapeLoop_mkRoot_final url [] hlastTags (processPage_nil_filters hlastEx acc) 0 0]
    simp
  | @cons p rs body' rss' hpr hrest ih =>
    rw [buildResponses]
    simp only [List.map_cons, List.cons_append]
    have hstep := @scrapeLoop_mkRoot_step [] pe p.1 acc (acc ++ rs) p.2 url
      (buildResponses body' last)
      (htags p (by simp)) (processPage_nil_filters hpr acc)
    rw [show (Response.ok (mkRoot p.1 (some p.2)), 0)
          :: (List.map (fun p => (Response.ok (mkRoot p.1 (some p.2)), 0)) body'
              ++ [(Response.ok (mkRoot last none), 0)])
        = (Response.ok (mkRoot p.1 (some p.2)), 0) :: buildResponses body' last from rfl]
    rw [hstep]
    rw [ih (fun x hx => htags x (by simp [hx])) (tokenUrl p.2) (acc ++ rs)]
    simp

/-- Claim C1 — For every category and every multi-page server response
sequence, `Scraper.scrape` with an empty FilterSpec returns every record of
every page, in server delivery order, with no record dropped, duplicated or
reordered across page boundaries: against a transport serving the pages of
`body` (each with a resumption token) and then `last` (without one), the
outcome is exactly the concatenation of the per-page extracted record
lists, in order, and each page is requested exactly once. -/
theorem scrape_empty_filter_all_records (category : String)
    (dateFrom dateUntil : Option String) (progressEvery : Nat)
    (body : List (List Elem × String)) (rss : List (List Record))
    (last : List Elem) (rsLast : List Record)
    (hex : List.Forall₂ (fun p rs => extractAll p.1 = Except.ok rs) body rss)
    (htags : ∀ p ∈ body, ∀ r ∈ p.1, r.tag = OAI2 ++ "record")
    (hlastTags : ∀ r ∈ last, r.tag = OAI2 ++ "record")
    (hlastEx : extractAll last = Except.ok rsLast) :
    (Scraper.init category dateFrom dateUntil progressEvery none []).scrape
        (buildResponses body last)
      = (Outcome.done (rss.flatten ++ rsLast),
         initialUrl category dateFrom dateUntil :: body.map (fun p => tokenUrl p.2),
         []) := by
  have hcollect := @scrapeLoop_empty_filter_collect progressEvery body rss last rsLast
    hex htags hlastTags hlastEx (initialUrl category dateFrom dateUntil) []
  simpa [Scraper.scrape, Scraper.init] using hcollect

/-! ## Concrete example data (used by witnesses and counterexamples) -/

/-- Example author with keyname, forenames and affiliation. -/
def exAuthor : Elem :=
  Elem.mk (ARXIV ++ "author") none
    [Elem.mk (ARXIV ++ "keyname") (some "Smith") [],
     Elem.mk (ARXIV ++ "forenames") (some "John A.") [],
     Elem.mk (ARXIV ++ "affiliation") (some "MIT") []]

/-- Example metadata element with id, a title carrying surrounding
whitespace and an embedded newline, and one author. -/
def exMeta : Elem :=
  Elem.mk (ARXIV ++ "arXiv") none
    [Elem.mk (ARXIV ++ "id") (some "1234.5678") [],
     Elem.mk (ARXIV ++ "title") (some "Deep  Learning\nStuff ") [],
     Elem.mk (ARXIV ++ "authors") none [exAuthor]]

/-- The `record` wrapper around `exMeta`. -/
def exRecordElem : Elem :=
  Elem.mk (OAI2 ++ "record") none
    [Elem.mk (OAI2 ++ "metadata") none [exMeta]]

/-- The record extracted from `exMeta`. -/
def exRecord : Record :=
  ⟨"1234.5678", "https://arxiv.org/abs/1234.5678", "deep  learning stuff",
   "", "", "", "", "", ["smith"], ["john a. smith"], ["mit"]⟩

/-- Example author with a keyname only (no forenames, no affiliation). -/
def exAuthorNoAff : Elem :=
  Elem.mk (ARXIV ++ "author") none
    [Elem.mk (ARXIV ++ "keyname") (some "Jones") []]

/-- Metadata with a title not containing any filter word and one author. -/
def exMetaCosmo : Elem :=
  Elem.mk (ARXIV ++ "arXiv") none
    [Elem.mk (ARXIV ++ "title") (some "Cosmology") [],
     Elem.mk (ARXIV ++ "authors") none [exAuthorNoAff]]

/-- The `record` wrapper around `exMetaCosmo`. -/
def exRecordElemCosmo : Elem :=
  Elem.mk (OAI2 ++ "record") none
    [Elem.mk (OAI2 ++ "metadata") none [exMetaCosmo]]

/-- The record extracted from `exMetaCosmo`. -/
def exRecordCosmo : Record :=
  ⟨"", "https://arxiv.org/abs/", "cosmology",
   "", "", "", "", "", ["jones"], ["jones"], []⟩

/-- Metadata with two authors, only the first carrying an affiliation. -/
def exMetaMixed : Elem :=
  Elem.mk (ARXIV ++ "arXiv") none
    [Elem.mk (ARXIV ++ "authors") none [exAuthor, exAuthorNoAff]]

/-- The record extracted from `exMetaMixed` (affiliation list empty, since
the second author has no affiliation element). -/
def exRecordMixed : Record :=
  ⟨"", "https://arxiv.org/abs/", "",
   "", "", "", "", "", ["smith", "jones"], ["john a. smith", "jones"], []⟩

/-- Witness for C1: a two-page transport (page 1 with token "T1", page 2
final); the harvest returns both records in delivery order and requests
each page once. -/
theorem scrape_empty_filter_all_records_witness :
    (Scraper.init "cs" none none 90 none []).scrape
        (buildResponses [([exRecordElem], "T1")] [exRecordElemCosmo])
      = (Outcome.done [exRecord, exRecordCosmo],
         [initialUrl "cs" none none, tokenUrl "T1"], []) :=
  scrape_empty_filter_all_records "cs" none none 90
    [([exRecordElem], "T1")] [[exRecord]] [exRecordElemCosmo] [exRecordCosmo]
    (List.Forall₂.cons (by rfl) List.Forall₂.nil)
    (by
      intro p hp x hx
      rw [List.mem_singleton] at hp
      subst hp
      rw [List.mem_singleton] at hx
      subst hx
      rfl)
    (by
      intro x hx
      rw [List.mem_singleton] at hx
      subst hx
      rfl)
    (by rfl)

/-- Claim C2, amended — after a successfully processed page, the loop
terminates exactly when the `ListRecords` envelope element is absent, or
the resumption-token element is absent, or the token element has no text;
in every other case (in particular a present `ListRecords` whose record
list is empty) it proceeds to issue exactly one more request whose URL is
built solely from the token — an empty record list alone does not stop the
loop. Stated for an iteration with zero duration, no timeout and a fresh
progress counter. -/
theorem pagination_step (f : List (String × List String)) (pe : Nat)
    (url : String) (root : Elem) (acc results2 : List Record)
    (rest : List (Response × Nat))
    (hproc : processPage f (pageRecords root) acc = Except.ok results2) :
    (listRecordsElem root = none →
      scrapeLoop f pe none url ((Response.ok root, 0) :: rest) acc 0 0
        = (Outcome.done results2, [url], [])) ∧
    (∀ lr, listRecordsElem root = some lr →
      findChild lr (OAI2 ++ "resumptionToken") = none →
      scrapeLoop f pe none url ((Response.ok root, 0) :: rest) acc 0 0
        = (Outcome.done results2, [url], [])) ∧
    (∀ lr tokEl, listRecordsElem root = some lr →
      findChild lr (OAI2 ++ "resumptionToken") = some tokEl →
      tokEl.text = none →
      scrapeLoop f pe none url ((Response.ok root, 0) :: rest) acc 0 0
        = (Outcome.done results2, [url], [])) ∧
    (∀ lr tokEl t2, listRecordsElem root = some lr →
      findChild lr (OAI2 ++ "resumptionToken") = some tokEl →
      tokEl.text = some t2 →
      scrapeLoop f pe none url ((Response.ok root, 0) :: rest) acc 0 0
        = (let r := scrapeLoop f pe none (tokenUrl t2) rest results2 0 0
           (r.1, url :: r.2.1, r.2.2))) := by
  refine ⟨?_, ?_, ?_, ?_⟩
  · intro hlr
    rw [scrapeLoop]
    simp only [hproc, hlr]
  · intro lr hlr htok
    rw [scrapeLoop]
    simp only [hproc, hlr, htok]
  · intro lr tokEl hlr htok htxt
    rw [scrapeLoop]
    simp only [hproc, hlr, htok, htxt]
  · intro lr tokEl t2 hlr htok htxt
    rw [scrapeLoop]
    simp only [hproc, hlr, htok, htxt]
    simp [Nat.not_lt_zero]

/-- A page whose `ListRecords` element holds no records, only a resumption
token with text "T". -/
def exEmptyTokenRoot : Elem := mkRoot [] (some "T")

/-- A final page: `ListRecords` present, no records, no token. -/
def exFinalRoot : Elem := mkRoot [] none

/-- Counterexample to C2 as stated: page 1 has an absent/empty record list
(`pageRecords` is empty) yet carries a resumption token, and the harvest
issues a further request (two URLs are requested), instead of terminating
after that page. -/
theorem pagination_empty_page_counterexample :
    pageRecords exEmptyTokenRoot = [] ∧
    (Scraper.init "cs" none none 90 none []).scrape
        [(Response.ok exEmptyTokenRoot, 0), (Response.ok exFinalRoot, 0)]
      = (Outcome.done [], [initialUrl "cs" none none, tokenUrl "T"], []) :=
  ⟨rfl, rfl⟩

/-- Witness for the amended C2: with a present token of text "T" on a page
with an empty record list, the loop proceeds to request the token URL. -/
theorem pagination_step_witness :
    scrapeLoop [] 90 none "u" [(Response.ok exEmptyTokenRoot, 0)] [] 0 0
      = (Outcome.outOfResponses (tokenUrl "T") [], ["u"], []) :=
  (pagination_step [] 90 "u" exEmptyTokenRoot [] [] [] rfl).2.2.2
    (Elem.mk (OAI2 ++ "ListRecords") none (lrChildren [] (some "T")))
    (Elem.mk (OAI2 ++ "resumptionToken") (some "T") []) "T" rfl rfl rfl

/-- Claim C4 — on an HTTP 503 the loop sleeps the `retry-after` header
value (default 5 when the header is absent), then retries the same URL with
the collected records, the progress counter and the elapsed time all
unchanged (the token is not advanced); on any other HTTP error it
propagates the error immediately: exactly one request was made, no retry,
no sleep, and no partial result is returned. -/
theorem throttling_behavior (f : List (String × List String)) (pe : Nat)
    (timeout : Option Nat) (url : String) (ra : Option Nat) (d : Nat)
    (rest : List (Response × Nat)) (acc : List Record) (lastlog elapsed : Nat) :
    (scrapeLoop f pe timeout url ((Response.httpError 503 ra, d) :: rest) acc lastlog elapsed
      = (let r := scrapeLoop f pe timeout url rest acc lastlog elapsed
         (r.1, url :: r.2.1, ra.getD 5 :: r.2.2))) ∧
    (∀ code, code ≠ 503 →
      scrapeLoop f pe timeout url ((Response.httpError code ra, d) :: rest) acc lastlog elapsed
        = (Outcome.raised (PyErr.httpError code), [url], [])) := by
  constructor
  · rfl
  · intro code hc
    rw [scrapeLoop]
    simp [hc]

/-- Witness for C4: one 503 (header 7) followed by exhaustion retries the
same URL after a 7-second sleep; a 404 propagates at once. -/
theorem throttling_behavior_witness :
    (scrapeLoop [] 90 none "u" [(Response.httpError 503 (some 7), 0)] [] 0 0
      = (Outcome.outOfResponses "u" [], ["u"], [7])) ∧
    (scrapeLoop [] 90 none "u" [(Response.httpError 404 (some 7), 0)] [] 0 0
      = (Outcome.raised (PyErr.httpError 404), ["u"], [])) :=
  ⟨(throttling_behavior [] 90 none "u" (some 7) 0 [] [] 0 0).1,
   (throttling_behavior [] 90 none "u" (some 7) 0 [] [] 0 0).2 404 (by decide)⟩

/-- Claim C5 — when a timeout is configured and the cumulative elapsed loop
time reaches it at the end of a successful iteration, the loop terminates
and returns the partial result collection normally (no error, no further
request), even though a valid resumption token was present and more
responses were available. -/
theorem soft_timeout (f : List (String × List String)) (pe T : Nat)
    (url : String) (root : Elem) (d : Nat) (rest : List (Response × Nat))
    (acc results2 : List Record) (lastlog elapsed : Nat)
    (lr tokEl : Elem) (t2 : String)
    (hproc : processPage f (pageRecords root) acc = Except.ok results2)
    (hlr : listRecordsElem root = some lr)
    (htok : findChild lr (OAI2 ++ "resumptionToken") = some tokEl)
    (htxt : tokEl.text = some t2)
    (hprog : lastlog + d ≤ pe ∨ results2 ≠ [])
    (hT : T ≤ elapsed + d) :
    scrapeLoop f pe (some T) url ((Response.ok root, d) :: rest) acc lastlog elapsed
      = (Outcome.done results2, [url], []) := by
  rw [scrapeLoop]
  simp only [hproc, hlr, htok, htxt]
  rcases hprog with hle | hne
  · have hgtf : ¬ (lastlog + d > pe) := Nat.not_lt.mpr hle
    simp [hgtf, hT]
  · have hef : results2.isEmpty = false := by
      cases results2 with
      | nil => exact absurd rfl hne
      | cons a t => rfl
    simp [hef, hT]

/-- Witness for C5: `timeout = 0` against a two-page transport returns
after exactly one page's worth of records — partial, not empty, no error. -/
theorem soft_timeout_witness :
    (Scraper.init "cs" none none 90 (some 0) []).scrape
        (buildResponses [([exRecordElem], "T1")] [exRecordElemCosmo])
      = (Outcome.done [exRecord], [initialUrl "cs" none none], []) :=
  soft_timeout [] 90 0 (initialUrl "cs" none none)
    (mkRoot [exRecordElem] (some "T1")) 0
    [(Response.ok (mkRoot [exRecordElemCosmo] none), 0)]
    [] [exRecord] 0 0
    (Elem.mk (OAI2 ++ "ListRecords") none (lrChildren [exRecordElem] (some "T1")))
    (Elem.mk (OAI2 ++ "resumptionToken") (some "T1") []) "T1"
    (by rfl) (by rfl) (by rfl) (by rfl)
    (Or.inl (by decide)) (by decide)

/-- Claim C6 — evaluation of the code at the failing input: with a filter
that discards every record (`title` must contain "zzz", but the only record
is titled "cosmology"), `progress_every = 0`, a page whose iteration took 1
second and which carries a resumption token, the progress emission reads
`results[-1]` on the empty result list and raises IndexError, aborting the
harvest — the progress observation is not side-effect-free and does change
control flow, contradicting the claim. -/
theorem progress_emission_indexerror :
    (Scraper.init "cs" none none 0 none [("title", ["zzz"])]).scrape
        [(Response.ok (mkRoot [exRecordElemCosmo] (some "T")), 1),
         (Response.ok exFinalRoot, 0)]
      = (Outcome.raised PyErr.indexError, [initialUrl "cs" none none], []) :=
  rfl

/-- Claim C3 — with a non-empty FilterSpec, a record is appended iff at
least one configured `(field, substring)` pair matches (the lowercased word
occurs in the record's value at that key): a logical OR over all pairs, not
an AND per key. The second conjunct unfolds the boolean match to the
existential form of the claim. -/
theorem filter_or_semantics (filters : List (String × List String))
    (r : Record) (e : Elem) (acc : List Record)
    (hne : filters ≠ [])
    (hkeys : ∀ kw ∈ filters, ∃ v, recGet r kw.1 = Except.ok v)
    (he : processRecord e = Except.ok r) :
    (processPage filters [e] acc
       = Except.ok (if filters.any (filterHitB r) then acc ++ [r] else acc)) ∧
    (filters.any (filterHitB r) = true ↔
      ∃ kw ∈ filters, ∃ w ∈ kw.2, ∃ v,
        recGet r kw.1 = Except.ok v ∧ pyInVal (pyLower w) v = true) := by
  constructor
  · have hfe : filters.isEmpty = false := by
      cases filters with
      | nil => exact absurd rfl hne
      | cons a t => rfl
    rw [processPage]
    simp only [he, hfe, Bool.false_eq_true, if_false]
    rw [shouldSave, shouldSaveLoop_ok hkeys false]
    simp only [Bool.false_or]
    cases hsave : filters.any (filterHitB r) <;> simp [processPage, hsave]
  · constructor
    · intro hany
      rcases List.any_eq_true.mp hany with ⟨kw, hkw, hhit⟩
      rcases List.any_eq_true.mp hhit with ⟨w, hw, hmatch⟩
      cases hv : recGet r kw.1 with
      | error err => rw [hv] at hmatch; simp at hmatch
      | ok v =>
        rw [hv] at hmatch
        exact ⟨kw, hkw, w, hw, v, hv, hmatch⟩
    · rintro ⟨kw, hkw, w, hw, v, hv, hin⟩
      refine List.any_eq_true.mpr ⟨kw, hkw, List.any_eq_true.mpr ⟨w, hw, ?_⟩⟩
      rw [hv]
      exact hin

/-- Witness for C3: the spec's example — filter `title: ["learning"]` keeps
the record titled "deep  learning stuff" (its title contains "learning"). -/
theorem filter_or_semantics_witness :
    (processPage [("title", ["learning"])] [exRecordElem] []
       = Except.ok [exRecord]) ∧
    (List.any [("title", ["learning"])] (filterHitB exRecord) = true ↔
      ∃ kw ∈ [("title", ["learning"])], ∃ w ∈ kw.2, ∃ v,
        recGet exRecord kw.1 = Except.ok v ∧ pyInVal (pyLower w) v = true) :=
  filter_or_semantics [("title", ["learning"])] exRecord exRecordElem []
    (by simp)
    (by
      intro kw hkw
      rw [List.mem_singleton] at hkw
      subst hkw
      exact ⟨Value.s exRecord.title, rfl⟩)
    (by rfl)

/-- Counterexample companion fact for the C3 witness context: the same
filter drops the record titled "cosmology" ("learning" does not occur). -/
theorem filter_or_semantics_drop_example :
    processPage [("title", ["learning"])] [exRecordElemCosmo] [] = Except.ok [] :=
  rfl

/-- The scalar fields of a record, by output-dictionary name. -/
def scalarTags : List String :=
  ["title", "abstract", "categories", "doi", "created", "updated"]

/-- Claim C7 — for each scalar field of an extracted record: the record's
value at that field is exactly `_get_text` of the namespaced sub-element;
if the sub-element is present with text, that is the text stripped of
surrounding whitespace, lowercased, with newlines replaced by single
spaces; if the sub-element is absent, or present without text, the value is
the empty string (`_get_text` is total — extraction never raises for a
missing scalar field). -/
theorem scalar_field_extraction {meta : Elem} {r : Record}
    (h : mkRecord meta = Except.ok r) (tag : String) (htag : tag ∈ scalarTags) :
    recGet r tag = Except.ok (Value.s (getText meta ARXIV tag)) ∧
    (∀ e t, findChild meta (ARXIV ++ tag) = some e → e.text = some t →
      getText meta ARXIV tag = pyReplaceNewline (pyLower (pyStrip t))) ∧
    (findChild meta (ARXIV ++ tag) = none → getText meta ARXIV tag = "") ∧
    (∀ e, findChild meta (ARXIV ++ tag) = some e → e.text = none →
      getText meta ARXIV tag = "") := by
  obtain ⟨hid, hurl, htitle, habs, hcats, hcre, hupd, hdoi, haff, -⟩ :=
    mkRecord_ok_fields h
  refine ⟨?_, ?_, ?_, ?_⟩
  · fin_cases htag
    · simp [recGet, htitle]
    · simp [recGet, habs]
    · simp [recGet, hcats]
    · simp [recGet, hdoi]
    · simp [recGet, hcre]
    · simp [recGet, hupd]
  · intro e t hfind htext
    rw [getText, hfind]
    simp [htext]
  · intro hfind
    rw [getText, hfind]
  · intro e hfind htext
    rw [getText, hfind]
    simp [htext]

/-- Witness for C7: the title field of the example record equals the
normalized title text, and the absent `doi` sub-element yields the empty
string without raising. -/
theorem scalar_field_extraction_witness :
    recGet exRecord "title" = Except.ok (Value.s (getText exMeta ARXIV "title")) ∧
    getText exMeta ARXIV "doi" = "" :=
  ⟨(scalar_field_extraction (by rfl) "title" (by decide)).1,
   (scalar_field_extraction (by rfl) "doi" (by decide)).2.2.1 rfl⟩

/-- Claim C8 — affiliation extraction is all-or-nothing: if every author
carries an affiliation element with text, the record's affiliation sequence
is the per-author lowercased affiliation strings in author order (length
N); if any single author lacks the affiliation element, or the author list
is empty, the sequence is empty. The catching in `_get_affiliation` makes
the extraction total (it never raises). -/
theorem affiliation_all_or_nothing {meta : Elem} {r : Record}
    (h : mkRecord meta = Except.ok r) :
    ((∀ a ∈ authorsOf meta,
        ∃ t, (findChild a (ARXIV ++ "affiliation")).bind Elem.text = some t) →
      r.affiliation = (authorsOf meta).map (fun a =>
        pyLower (((findChild a (ARXIV ++ "affiliation")).bind Elem.text).getD "")) ∧
      r.affiliation.length = (authorsOf meta).length) ∧
    ((∃ a ∈ authorsOf meta, findChild a (ARXIV ++ "affiliation") = none) →
      r.affiliation = []) ∧
    (authorsOf meta = [] → r.affiliation = []) := by
  obtain ⟨-, -, -, -, -, -, -, -, haff, -⟩ := mkRecord_ok_fields h
  refine ⟨?_, ?_, ?_⟩
  · intro hall
    have hok : ∀ a ∈ authorsOf meta, affiliationOf a
        = Except.ok (pyLower (((findChild a (ARXIV ++ "affiliation")).bind Elem.text).getD "")) := by
      intro a ha
      rcases hall a ha with ⟨t, ht⟩
      cases hfc : findChild a (ARXIV ++ "affiliation") with
      | none => rw [hfc] at ht; simp at ht
      | some f =>
        rw [hfc] at ht
        simp only [Option.some_bind] at ht
        rw [affiliationOf, hfc]
        simp [ht]
    rw [haff, getAffiliation, exceptMapM_ok_of_forall hok]
    simp
  · intro hsome
    rcases hsome with ⟨a, ha, hnone⟩
    have hbad : ∀ b, affiliationOf a ≠ Except.ok b := by
      intro b hb
      rw [affiliationOf, hnone] at hb
      exact Except.noConfusion hb
    rcases exceptMapM_error_of_exists ⟨a, ha, hbad⟩ with ⟨err, herr⟩
    rw [haff, getAffiliation, herr]
  · intro hempty
    rw [haff, hempty]
    rfl

/-- Witness for C8: in `exMeta` the single author carries an affiliation
with text, so the sequence is the lowercased strings in author order; in
`exMetaMixed` the second of two authors lacks the element, so the whole
sequence is empty even though the first author has one. -/
theorem affiliation_all_or_nothing_witness :
    (exRecord.affiliation = ["mit"] ∧
      exRecord.affiliation.length = (authorsOf exMeta).length) ∧
    exRecordMixed.affiliation = [] :=
  ⟨(@affiliation_all_or_nothing exMeta exRecord (by rfl)).1
      (by
        intro a ha
        rw [show authorsOf exMeta = [exAuthor] from rfl, List.mem_singleton] at ha
        subst ha
        exact ⟨"MIT", rfl⟩),
   (@affiliation_all_or_nothing exMetaMixed exRecordMixed (by rfl)).2.1
      ⟨exAuthorNoAff,
       by
        rw [show authorsOf exMetaMixed = [exAuthor, exAuthorNoAff] from rfl]
        exact List.mem_cons_of_mem _ (List.mem_singleton.mpr rfl),
       rfl⟩⟩

theorem pyStrip_space_cons (s : String) :
    pyStrip (" " ++ s) = pyStrip s := by
  cases s with
  | mk data =>
    show pyStrip (String.mk ([' '] ++ data)) = pyStrip (String.mk data)
    simp [pyStrip, stripChars, List.dropWhile]

theorem fullnameOf_empty (last : String) :
    fullnameOf "" last = pyStrip last := by
  have h1 : ("" ++ " " ++ last) = " " ++ last := by
    cases last with
    | mk data => rfl
  rw [fullnameOf, h1, pyStrip_space_cons]

/-- Author whose keyname text carries a leading space and who has no
forenames element. -/
def exAuthorWs : Elem :=
  Elem.mk (ARXIV ++ "author") none
    [Elem.mk (ARXIV ++ "keyname") (some " Smith") []]

/-- Metadata holding only `exAuthorWs`. -/
def exMetaWs : Elem :=
  Elem.mk (ARXIV ++ "arXiv") none
    [Elem.mk (ARXIV ++ "authors") none [exAuthorWs]]

/-- Counterexample to C9 as stated: the sole author has no forenames
element, its extracted surname is " smith" (keyname text lowercased, not
stripped), but the full name is "smith" (the composition is stripped) — so
the full name is not equal to the surname exactly. -/
theorem author_fullname_counterexample :
    findChild exAuthorWs (ARXIV ++ "forenames") = none ∧
    (mkRecord exMetaWs).map (fun r => (r.authors, r.authors_fullnames))
      = Except.ok ([" smith"], ["smith"]) ∧
    (" smith" : String) ≠ "smith" :=
  ⟨rfl, rfl, by decide⟩

/-- Claim C9, amended — for every extracted record, `authors` and
`authors_fullnames` have equal length and are parallel-indexed in document
order, the i-th full name being `(first + " " + last).strip()` of the i-th
author's lowercased forenames and surname; an author with no forenames
element has a full name equal to its surname stripped of surrounding
whitespace (so with no leading space) — equal to the surname exactly
whenever the surname carries no surrounding whitespace. -/
theorem authors_fullnames_parity {meta : Elem} {r : Record}
    (h : mkRecord meta = Except.ok r) :
    r.authors.length = r.authors_fullnames.length ∧
    (∀ lasts firsts, getLastNames (authorsOf meta) = Except.ok lasts →
      getFirstNames (authorsOf meta) = Except.ok firsts →
      r.authors = lasts ∧ r.authors_fullnames = List.zipWith fullnameOf firsts lasts) ∧
    (∀ i, i < (authorsOf meta).length →
      findChild ((authorsOf meta).getD i default) (ARXIV ++ "forenames") = none →
      r.authors_fullnames.getD i "" = pyStrip (r.authors.getD i "")) := by
  obtain ⟨-, -, -, -, -, -, -, -, -, lasts, firsts, hls, hfs, hauth, hfull⟩ :=
    mkRecord_ok_fields h
  have hll : lasts.length = (authorsOf meta).length := exceptMapM_ok_length hls
  have hfl : firsts.length = (authorsOf meta).length := exceptMapM_ok_length hfs
  refine ⟨?_, ?_, ?_⟩
  · rw [hauth, hfull, List.length_zipWith, hll, hfl]
    exact (Nat.min_self _).symm
  · intro lasts' firsts' hls' hfs'
    rw [hls] at hls'
    rw [hfs] at hfs'
    simp only [Except.ok.injEq] at hls' hfs'
    subst hls'
    subst hfs'
    exact ⟨hauth, hfull⟩
  · intro i hi hfore
    have hil : i < lasts.length := by rw [hll]; exact hi
    have hif : i < firsts.length := by rw [hfl]; exact hi
    have hiz : i < (List.zipWith fullnameOf firsts lasts).length := by
      rw [List.length_zipWith, hll, hfl]
      simpa using hi
    have hfirst : firsts[i] = "" := by
      have hstep := exceptMapM_ok_getElem hfs i hi hif
      rw [List.getD_eq_getElem _ _ hi] at hfore
      rw [firstNameOf, hfore] at hstep
      simp only [Except.ok.injEq] at hstep
      exact hstep.symm
    rw [hauth, hfull]
    rw [List.getD_eq_getElem _ _ hiz, List.getD_eq_getElem _ _ hil]
    rw [List.getElem_zipWith, hfirst, fullnameOf_empty]

/-- Witness for the amended C9, at `exMetaMixed`: the two lists have equal
length, and author index 1 ("Jones", no forenames) has full name "jones" =
the stripped surname. -/
theorem authors_fullnames_parity_witness :
    exRecordMixed.authors.length = exRecordMixed.authors_fullnames.length ∧
    exRecordMixed.authors_fullnames.getD 1 ""
      = pyStrip (exRecordMixed.authors.getD 1 "") :=
  ⟨(@authors_fullnames_parity exMetaMixed exRecordMixed (by rfl)).1,
   (@authors_fullnames_parity exMetaMixed exRecordMixed (by rfl)).2.2 1
     (by decide) (by rfl)⟩

theorem recGet_not_mem {k : String} (hk : k ∉ fieldNames) (r : Record) :
    recGet r k = Except.error (PyErr.keyError k) := by
  simp only [fieldNames, List.mem_cons, List.not_mem_nil, or_false, not_or] at hk
  obtain ⟨h1, h2, h3, h4, h5, h6, h7, h8, h9, h10, h11⟩ := hk
  rw [recGet]
  simp [h1, h2, h3, h4, h5, h6, h7, h8, h9, h10, h11]

theorem recGet_mem {k : String} (hk : k ∈ fieldNames) (r : Record) :
    ∃ v, recGet r k = Except.ok v := by
  fin_cases hk
  · exact ⟨Value.s r.title, by simp [recGet]⟩
  · exact ⟨Value.s r.id, by simp [recGet]⟩
  · exact ⟨Value.s r.abstract, by simp [recGet]⟩
  · exact ⟨Value.s r.cats, by simp [recGet]⟩
  · exact ⟨Value.s r.doi, by simp [recGet]⟩
  · exact ⟨Value.s r.created, by simp [recGet]⟩
  · exact ⟨Value.s r.updated, by simp [recGet]⟩
  · exact ⟨Value.l r.authors, by simp [recGet]⟩
  · exact ⟨Value.l r.authors_fullnames, by simp [recGet]⟩
  · exact ⟨Value.l r.affiliation, by simp [recGet]⟩
  · exact ⟨Value.s r.url, by simp [recGet]⟩

/-- The first filter pair whose key is not an output field name and whose
word list is non-empty — the pair at which the filtering loop raises
KeyError, when it exists. -/
def firstBadKey (filters : List (String × List String)) : Option String :=
  (filters.find? (fun kw => !(decide (kw.1 ∈ fieldNames)) && !kw.2.isEmpty)).map
    Prod.fst

theorem shouldSaveLoop_firstBadKey {filters : List (String × List String)}
    {k : String} (r : Record) (acc : Bool)
    (hbad : firstBadKey filters = some k) :
    shouldSaveLoop r acc filters = Except.error (PyErr.keyError k) := by
  induction filters generalizing acc with
  | nil => simp [firstBadKey] at hbad
  | cons kw rest ih =>
    cases hcond : (!(decide (kw.1 ∈ fieldNames)) && !kw.2.isEmpty) with
    | true =>
      rw [firstBadKey, List.find?_cons, hcond] at hbad
      simp only [Option.map] at hbad
      have hbadk : kw.1 = k := Option.some.inj hbad
      subst hbadk
      have hnotmem : kw.1 ∉ fieldNames := by
        intro hmem
        rw [decide_eq_true hmem] at hcond
        simp at hcond
      have hwn : kw.2.isEmpty = false := by
        cases hk2 : kw.2.isEmpty
        · rfl
        · rw [hk2] at hcond; simp at hcond
      cases hw : kw.2 with
      | nil => rw [hw] at hwn; simp at hwn
      | cons w ws =>
        rw [shouldSaveLoop, hw, shouldSaveWords, recGet_not_mem hnotmem r]
    | false =>
      rw [firstBadKey, List.find?_cons, hcond] at hbad
      have hbad' : firstBadKey rest = some k := hbad
      by_cases hmem : kw.1 ∈ fieldNames
      · rcases recGet_mem hmem r with ⟨v, hv⟩
        rw [shouldSaveLoop, shouldSaveWords_ok hv]
        exact ih _ hbad'
      · have hdm : (!(decide (kw.1 ∈ fieldNames))) = true := by
          simp [hmem]
        rw [hdm, Bool.true_and] at hcond
        have hwnil : kw.2 = [] := by
          cases hk2 : kw.2 with
          | nil => rfl
          | cons w ws => rw [hk2] at hcond; simp at hcond
        rw [shouldSaveLoop, hwnil, shouldSaveWords]
        exact ih _ hbad'

theorem processPage_cons_error {filters : List (String × List String)}
    {e : Elem} {es : List Elem} {acc : List Record} {r : Record} {err : PyErr}
    (hne : filters.isEmpty = false)
    (hok : processRecord e = Except.ok r)
    (herr : shouldSave filters r = Except.error err) :
    processPage filters (e :: es) acc = Except.error err := by
  rw [processPage]
  simp [hok, hne, herr]

/-- Claim C10, amended — if the filters mapping contains a key that is not
an output field name and is mapped to at least one substring (a key mapped
to an empty word list is never looked up), then on the first page
containing at least one extractable record, `scrape` raises KeyError at
the first record, before any further request; and `Scraper.init` stores
any filters mapping verbatim — filter keys are never validated at
construction. -/
theorem invalid_filter_key_amended (category : String)
    (dateFrom dateUntil : Option String) (pe : Nat) (timeout : Option Nat)
    (filters : List (String × List String)) (k : String)
    (root e : Elem) (es : List Elem) (r : Record) (d : Nat)
    (rest : List (Response × Nat))
    (hbad : firstBadKey filters = some k)
    (hrecs : pageRecords root = e :: es)
    (hok : processRecord e = Except.ok r) :
    (Scraper.init category dateFrom dateUntil pe timeout filters).scrape
        ((Response.ok root, d) :: rest)
      = (Outcome.raised (PyErr.keyError k),
         [initialUrl category dateFrom dateUntil], []) ∧
    (Scraper.init category dateFrom dateUntil pe timeout filters).filters
      = filters := by
  have hfne : filters.isEmpty = false := by
    cases filters with
    | nil => simp [firstBadKey] at hbad
    | cons a t => rfl
  have herr : shouldSave filters r = Except.error (PyErr.keyError k) :=
    shouldSaveLoop_firstBadKey r false hbad
  constructor
  · show scrapeLoop filters pe timeout (initialUrl category dateFrom dateUntil)
        ((Response.ok root, d) :: rest) [] 0 0
      = (Outcome.raised (PyErr.keyError k),
         [initialUrl category dateFrom dateUntil], [])
    rw [scrapeLoop, hrecs, processPage_cons_error hfne hok herr]
  · rfl

/-- Counterexample to C10 as stated: the filters mapping is non-empty and
its key "nosuchfield" is not an output field name, a page with one record
is served, and yet `scrape` raises no KeyError (it completes normally) —
because the key's word list is empty, `record[key]` is never evaluated. -/
theorem invalid_filter_key_counterexample :
    "nosuchfield" ∉ fieldNames ∧
    (Scraper.init "cs" none none 90 none [("nosuchfield", [])]).scrape
        [(Response.ok (mkRoot [exRecordElem] none), 0)]
      = (Outcome.done [], [initialUrl "cs" none none], []) :=
  ⟨by decide, rfl⟩

/-- Witness for the amended C10: the same invalid key mapped to one word
makes `scrape` raise KeyError on the page's first record, and `init`
stored the filters unvalidated. -/
theorem invalid_filter_key_witness :
    (Scraper.init "cs" none none 90 none [("nosuchfield", ["x"])]).scrape
        [(Response.ok (mkRoot [exRecordElem] none), 0)]
      = (Outcome.raised (PyErr.keyError "nosuchfield"),
         [initialUrl "cs" none none], []) ∧
    (Scraper.init "cs" none none 90 none [("nosuchfield", ["x"])]).filters
      = [("nosuchfield", ["x"])] :=
  invalid_filter_key_amended "cs" none none 90 none [("nosuchfield", ["x"])]
    "nosuchfield" (mkRoot [exRecordElem] none) exRecordElem [] exRecord 0 []
    (by rfl) (by rfl) (by rfl)

end ArxivScraper
